import Mathlib

/-!
Shallow embedding of `src/server.c` (choisey/epoll-client-and-server):
a single-threaded epoll TCP server. The event loop's observable behaviour
is modelled as a trace of actions; the results of the OS calls (`recv`,
`send`, `accept`, `fcntl`, `epoll_ctl`, `close`) are supplied by oracles,
so every theorem quantifies over all possible OS behaviours.
-/

namespace EpollServer

/-- Value of a byte interpreted as C `char` on the reference target
(x86-64 Linux, where plain `char` is signed). -/
def charSigned (b : Nat) : Int := if b < 128 then (b : Int) else (b : Int) - 256

/-- One byte after the sanitization pass of the recv loop
(`if ( *p < ' ' && *p != '\n' ) *p = '.';`, server.c:399). -/
def sanitizeByte (b : Nat) : Nat :=
  if charSigned b < 32 ∧ charSigned b ≠ 10 then 46 else b

/-- The whole receive buffer after sanitization (server.c:396-401). -/
def sanitize (bs : List Nat) : List Nat := bs.map sanitizeByte

/-- The acknowledgment frame: `static char ack[] = "Ack\n"` sent with length
`sizeof(ack)` = 5, trailing NUL included (server.c:453-455). -/
def ackPayload : List Nat := [65, 99, 107, 10, 0]

/-- How the recv loop of server.c:394 stopped: the first non-positive
return value of `recv`. -/
inductive RecvStop
  | wouldBlock
  | connReset
  | fatal
  | eof
deriving DecidableEq

/-- Outcomes of the two OS calls made by `handle_close`. -/
structure CloseOracle where
  deregOk : Bool
  closeOk : Bool
deriving DecidableEq

/-- Classified outcome of the `send` call (server.c:455-489). -/
inductive SendResult
  | ok
  | badDesc
  | connReset
  | wouldBlock
  | fatal
deriving DecidableEq

/-- OS behaviour for one connection event: the data chunks returned by the
successive `recv` calls, how the recv loop stops, the outcome of the `send`,
and the outcomes of any `handle_close` invocation. -/
structure EventOracle where
  chunks : List (List Nat)
  stop : RecvStop
  readClose : CloseOracle
  sendRes : SendResult
  writeClose : CloseOracle
deriving DecidableEq

/-- OS behaviour for one listener event: `accept` result (new descriptor or
failure) and the outcomes of the two `fcntl` calls and the `epoll_ctl` add. -/
structure AcceptOracle where
  acceptRes : Option Nat
  fcntlGetOk : Bool
  fcntlSetOk : Bool
  epollAddOk : Bool
deriving DecidableEq

/-- The readiness flags an epoll event carries. -/
structure EpollFlags where
  epollin : Bool
  epollout : Bool
  epollerr : Bool
deriving DecidableEq

/-- One entry of the event batch, together with the OS oracles consulted
while handling it. -/
structure Event where
  fd : Nat
  flags : EpollFlags
  conn : EventOracle
  acc : AcceptOracle
deriving DecidableEq

/-- Diagnostics the server prints to stderr. -/
inductive Msg
  | epollCtlErr
  | closeErr
  | recvErr
  | sendErr
  | acceptErr
  | fcntlErr
  | waitErr
  | shuttingDown
  | epollErrFlag
deriving DecidableEq

/-- Observable actions of the server, in program order. -/
inductive Action
  | recvCall (fd : Nat)
  | logOut (bytes : List Nat)
  | sendAck (fd : Nat) (payload : List Nat)
  | deregister (fd : Nat)
  | closeFd (fd : Nat)
  | acceptConn (fd : Nat)
  | setNonblocking (fd : Nat)
  | register (fd : Nat) (rdIn wrOut edgeT : Bool)
  | diag (m : Msg)
deriving DecidableEq

/-- The `handle_close` routine (server.c:87-120): deregister the descriptor from epoll,
then close it; either failure prints a diagnostic and exits with code 1;
on success the function returns 0 (modelled as exit component `none`). -/
def handle_close (fd : Nat) (o : CloseOracle) : List Action × Option Nat :=
  if o.deregOk then
    if o.closeOk then
      ([Action.deregister fd, Action.closeFd fd], none)
    else
      ([Action.deregister fd, Action.diag Msg.closeErr], some 1)
  else
    ([Action.diag Msg.epollCtlErr], some 1)

/-- The counter `total_bytes_in` accumulated by the recv loop (server.c:390-406). -/
def totalBytes (o : EventOracle) : Nat := (o.chunks.map List.length).sum

/-- Trace of the recv loop (server.c:394-406): one `recv` call per positive
return, each chunk sanitized in place and logged, plus the final `recv`
call whose non-positive return ends the loop. -/
def readLoopTrace (fd : Nat) : List (List Nat) → List Action
  | [] => [Action.recvCall fd]
  | c :: cs => Action.recvCall fd :: Action.logOut (sanitize c) :: readLoopTrace fd cs

/-- What the read phase decides to do with the connection. -/
inductive ReadOutcome
  | keepOpen
  | closePeer
  | fatalRecv
deriving DecidableEq

/-- The `switch ( received )` after the recv loop (server.c:408-444):
EAGAIN continues, ECONNRESET closes, any other `recv` error is fatal, and a
zero return closes only when `total_bytes_in` is zero in this pass. -/
def readDecision (o : EventOracle) : ReadOutcome :=
  match o.stop with
  | RecvStop.wouldBlock => ReadOutcome.keepOpen
  | RecvStop.connReset => ReadOutcome.closePeer
  | RecvStop.fatal => ReadOutcome.fatalRecv
  | RecvStop.eof =>
      if totalBytes o = 0 then ReadOutcome.closePeer else ReadOutcome.keepOpen

/-- The EPOLLIN branch for a connection descriptor (server.c:387-445). -/
def readPhase (fd : Nat) (o : EventOracle) : List Action × Option Nat :=
  match readDecision o with
  | ReadOutcome.keepOpen => (readLoopTrace fd o.chunks, none)
  | ReadOutcome.closePeer =>
      (readLoopTrace fd o.chunks ++ (handle_close fd o.readClose).1,
       (handle_close fd o.readClose).2)
  | ReadOutcome.fatalRecv =>
      (readLoopTrace fd o.chunks ++ [Action.diag Msg.recvErr], some 1)

/-- The EPOLLOUT branch (server.c:447-492): when `total_bytes_in` is nonzero,
send the 5-byte ack; EBADF is ignored, ECONNRESET closes the connection,
and every other `send` error — EAGAIN included — is fatal. -/
def writePhase (fd : Nat) (total : Nat) (o : EventOracle) : List Action × Option Nat :=
  if total = 0 then ([], none)
  else
    match o.sendRes with
    | SendResult.ok => ([Action.sendAck fd ackPayload], none)
    | SendResult.badDesc => ([Action.sendAck fd ackPayload], none)
    | SendResult.connReset =>
        (Action.sendAck fd ackPayload :: (handle_close fd o.writeClose).1,
         (handle_close fd o.writeClose).2)
    | SendResult.wouldBlock =>
        ([Action.sendAck fd ackPayload, Action.diag Msg.sendErr], some 1)
    | SendResult.fatal =>
        ([Action.sendAck fd ackPayload, Action.diag Msg.sendErr], some 1)

/-- The listener branch (server.c:292-385): at most one `accept` per
readiness notification; a failing `accept`, `fcntl` or `epoll_ctl` is fatal;
on success the new descriptor is set non-blocking and registered for
EPOLLIN|EPOLLOUT|EPOLLET. The branch ends in `continue`, so the read, write
and error-flag handling of this event is skipped. -/
def acceptPhase (flags : EpollFlags) (o : AcceptOracle) : List Action × Option Nat :=
  if flags.epollin then
    match o.acceptRes with
    | none => ([Action.diag Msg.acceptErr], some 1)
    | some c =>
        if o.fcntlGetOk then
          if o.fcntlSetOk then
            if o.epollAddOk then
              ([Action.acceptConn c, Action.setNonblocking c,
                Action.register c true true true], none)
            else
              ([Action.acceptConn c, Action.setNonblocking c,
                Action.diag Msg.epollCtlErr], some 1)
          else ([Action.acceptConn c, Action.diag Msg.fcntlErr], some 1)
        else ([Action.acceptConn c, Action.diag Msg.fcntlErr], some 1)
  else ([], none)

/-- The sequence of the EPOLLIN, EPOLLOUT and EPOLLERR blocks for a
connection descriptor (server.c:387-498): `total_bytes_in` starts at zero
for this event and is consulted by the write phase; a call to `exit` in an
earlier phase stops the pass. -/
def connPhases (ev : Event) : List Action × Option Nat :=
  match (if ev.flags.epollin then readPhase ev.fd ev.conn else ([], none)) with
  | (t1, some c) => (t1, some c)
  | (t1, none) =>
      match (if ev.flags.epollout then
               writePhase ev.fd (if ev.flags.epollin then totalBytes ev.conn else 0) ev.conn
             else ([], none)) with
      | (t2, some c) => (t1 ++ t2, some c)
      | (t2, none) =>
          (t1 ++ t2 ++ (if ev.flags.epollerr then [Action.diag Msg.epollErrFlag] else []),
           none)

/-- One iteration of the per-event `for` body (server.c:286-499).
`total_bytes_in` is declared at the top of this body (server.c:290), so it
starts at zero for every event and is shared only between this event's own
read and write phases. A listener event is handled entirely by the accept
branch, which ends in `continue`. -/
def processEvent (listenfd : Nat) (ev : Event) : List Action × Option Nat :=
  if ev.fd = listenfd then acceptPhase ev.flags ev.acc
  else connPhases ev

/-- The `for` loop over one event batch (server.c:286-499); a call to
`exit` aborts the remainder of the batch. -/
def processBatch (listenfd : Nat) : List Event → List Action × Option Nat
  | [] => ([], none)
  | ev :: rest =>
      match processEvent listenfd ev with
      | (t, some c) => (t, some c)
      | (t, none) =>
          (t ++ (processBatch listenfd rest).1, (processBatch listenfd rest).2)

/-- Result of the blocking `epoll_wait` call (server.c:255). -/
inductive PollResult
  | events (batch : List Event)
  | interrupted
  | failed
deriving DecidableEq

/-- One pass of the `while (1)` event loop (server.c:253-500): on EINTR the
server prints a notice, closes the listening socket and exits 0 (exit 1 if
that close fails); any other `epoll_wait` failure exits 1; otherwise the
batch is processed. -/
def eventLoopStep (listenfd : Nat) (r : PollResult) (shutdownCloseOk : Bool) :
    List Action × Option Nat :=
  match r with
  | PollResult.interrupted =>
      if shutdownCloseOk then
        ([Action.diag Msg.shuttingDown, Action.closeFd listenfd], some 0)
      else
        ([Action.diag Msg.shuttingDown, Action.diag Msg.closeErr], some 1)
  | PollResult.failed => ([Action.diag Msg.waitErr], some 1)
  | PollResult.events batch => processBatch listenfd batch

/-- Number of ack `send` calls on descriptor `fd` in a trace. -/
def countAck (fd : Nat) (tr : List Action) : Nat :=
  tr.countP fun a =>
    match a with
    | Action.sendAck f _ => f == fd
    | _ => false

/-- Number of successful `close` calls on descriptor `fd` in a trace. -/
def countCloseFd (fd : Nat) (tr : List Action) : Nat :=
  tr.countP fun a =>
    match a with
    | Action.closeFd f => f == fd
    | _ => false

/-- Number of `accept` calls that returned a connection in a trace. -/
def countAccept (tr : List Action) : Nat :=
  tr.countP fun a =>
    match a with
    | Action.acceptConn _ => true
    | _ => false

/-- The descriptor an action deregisters, if any. -/
def deregFd : Action → Option Nat
  | Action.deregister f => some f
  | _ => none

/-- Does the action perform I/O (recv or send) on descriptor `fd`? -/
def usesFd (fd : Nat) : Action → Bool
  | Action.recvCall f => f == fd
  | Action.sendAck f _ => f == fd
  | _ => false

/-- Is the action a `recv` call on descriptor `fd`? -/
def isRecvOn (fd : Nat) : Action → Bool
  | Action.recvCall f => f == fd
  | _ => false

/-- Does some deregistration in the trace precede a recv or send on the
same descriptor? -/
def afterDeregUse : List Action → Bool
  | [] => false
  | a :: rest =>
      (match deregFd a with
       | some fd => rest.any (usesFd fd)
       | none => false) || afterDeregUse rest

/-- Does some deregistration in the trace precede a recv on the same
descriptor? -/
def afterDeregRecv : List Action → Bool
  | [] => false
  | a :: rest =>
      (match deregFd a with
       | some fd => rest.any (isRecvOn fd)
       | none => false) || afterDeregRecv rest

/-- A close oracle in which both OS calls succeed. -/
def closeOk : CloseOracle := ⟨true, true⟩

/-- An accept oracle in which every OS call succeeds, yielding descriptor 7. -/
def accOk : AcceptOracle := ⟨some 7, true, true, true⟩

/-- Connection oracle: one 1-byte chunk, loop ends with EAGAIN, send ok. -/
def oOneByte : EventOracle := ⟨[[104]], RecvStop.wouldBlock, closeOk, SendResult.ok, closeOk⟩

/-- Connection oracle: no data, loop ends with EAGAIN on the first call. -/
def oEmptyWB : EventOracle := ⟨[], RecvStop.wouldBlock, closeOk, SendResult.ok, closeOk⟩

/-- Connection oracle: one chunk, then the send would block. -/
def oSendWB : EventOracle := ⟨[[104]], RecvStop.wouldBlock, closeOk, SendResult.wouldBlock, closeOk⟩

/-- Connection oracle: one chunk read, then `recv` reports ECONNRESET, the
close succeeds, and the subsequent send reports EBADF. -/
def oResetAfterData : EventOracle := ⟨[[104]], RecvStop.connReset, closeOk, SendResult.badDesc, closeOk⟩

/-- Connection oracle: `recv` immediately fails with a fatal errno. -/
def oFatalRecv : EventOracle := ⟨[], RecvStop.fatal, closeOk, SendResult.ok, closeOk⟩

/-- Connection event on descriptor 4, read-readiness only, one byte read. -/
def evReadOnly : Event := ⟨4, ⟨true, false, false⟩, oOneByte, accOk⟩

/-- Connection event on descriptor 4, read+write readiness, two bytes read. -/
def evTwoBytes : Event :=
  ⟨4, ⟨true, true, false⟩, ⟨[[104, 105]], RecvStop.wouldBlock, closeOk, SendResult.ok, closeOk⟩, accOk⟩

/-- Connection event on descriptor 5, read+write readiness, nothing to read. -/
def evNoData : Event := ⟨5, ⟨true, true, false⟩, oEmptyWB, accOk⟩

/-- Connection event on descriptor 4 whose `recv` fails fatally. -/
def evFatal : Event := ⟨4, ⟨true, false, false⟩, oFatalRecv, accOk⟩

/-- Connection event on descriptor 4: data, then reset during read, then the
write phase's send hits EBADF. -/
def evResetThenSend : Event := ⟨4, ⟨true, true, false⟩, oResetAfterData, accOk⟩

/-- Claim C4 counterexample: byte 0x80 is replaced by the placeholder although
the claim predicts it is logged unchanged — on the reference target plain
`char` is signed, so `*p < ' '` holds for bytes 0x80-0xFF. -/
theorem sanitize_high_byte_cex :
    ¬ (∀ b : Nat, b < 256 →
        sanitizeByte b = (if b < 32 ∧ b ≠ 10 then 46 else b)) := by
  intro h
  have h2 := h 128 (by decide)
  exact absurd h2 (by decide)

/-- Claim C4 (corrected): a received byte is logged as the placeholder iff its
signed-char value is below 0x20 and is not newline, i.e. iff the byte is below
0x20 or at least 0x80 (newline excepted); bytes 0x20-0x7F are logged
unchanged, and the concrete input bytes 0x01 h i 0x0A log as ".hi" plus
newline. -/
theorem sanitize_signed_char (b : Nat) (hb : b < 256) :
    (sanitizeByte b = (if (b < 32 ∨ 128 ≤ b) ∧ b ≠ 10 then 46 else b)) ∧
    sanitize [1, 104, 105, 10] = [46, 104, 105, 10] := by
  refine ⟨?_, by decide⟩
  unfold sanitizeByte charSigned
  split_ifs <;> omega

/-- Witness for the corrected C4 theorem, instantiated at byte 0x80. -/
theorem sanitize_signed_char_witness :
    ((sanitizeByte 128 = (if (128 < 32 ∨ 128 ≤ 128) ∧ 128 ≠ 10 then 46 else 128)) ∧
      sanitize [1, 104, 105, 10] = [46, 104, 105, 10]) :=
  sanitize_signed_char 128 (by decide)

/-- Claim C2 counterexample: a read pass whose first `recv` reports would-block
ends with zero bytes read in total, yet the connection is not closed. -/
theorem would_block_no_close_cex :
    ¬ (∀ (fd : Nat) (o : EventOracle),
        (totalBytes o = 0 → Action.deregister fd ∈ (readPhase fd o).1) ∧
        (0 < totalBytes o → Action.deregister fd ∉ (readPhase fd o).1)) := by
  intro h
  have h2 := (h 4 oEmptyWB).1 (by decide)
  exact absurd h2 (by decide)

/-- Claim C2 (corrected): the read phase closes the connection iff the recv
loop ended in a connection reset, or ended with an orderly zero-length read
while the pass's byte count is zero; a would-block exit never closes the
connection, even when zero bytes were read. -/
theorem read_close_condition (fd : Nat) (o : EventOracle) :
    (readDecision o = ReadOutcome.closePeer ↔
      (o.stop = RecvStop.connReset ∨ (o.stop = RecvStop.eof ∧ totalBytes o = 0))) ∧
    (readDecision o = ReadOutcome.closePeer →
      (readPhase fd o).1 = readLoopTrace fd o.chunks ++ (handle_close fd o.readClose).1 ∧
      (readPhase fd o).2 = (handle_close fd o.readClose).2) ∧
    (o.stop = RecvStop.wouldBlock →
      (readPhase fd o).1 = readLoopTrace fd o.chunks ∧ (readPhase fd o).2 = none) := by
  obtain ⟨cs, st, rc, sr, wc⟩ := o
  cases st <;>
    simp [readDecision, readPhase, totalBytes] <;>
    split_ifs <;>
    simp_all [readPhase, readDecision, totalBytes]

/-- Claim C3 counterexample: a would-block result from the ack send terminates
the process with exit code 1 instead of being recoverable. -/
theorem send_would_block_fatal_cex :
    ¬ (∀ (fd total : Nat) (o : EventOracle), total ≠ 0 →
        o.sendRes = SendResult.wouldBlock → (writePhase fd total o).2 ≠ some 1) := by
  intro h
  exact h 4 1 oSendWB (by decide) (by decide) (by decide)

/-- Claim C3 (corrected): when the pass received a nonzero byte count, a
bad-descriptor send failure is ignored with no state change, a
connection-reset failure runs the per-connection close path, and both a
would-block result and every other send failure terminate the process with
exit code 1. -/
theorem send_error_dispatch (fd t : Nat) (o : EventOracle) :
    (o.sendRes = SendResult.badDesc →
      writePhase fd (t + 1) o = ([Action.sendAck fd ackPayload], none)) ∧
    (o.sendRes = SendResult.connReset →
      (writePhase fd (t + 1) o).1 =
        Action.sendAck fd ackPayload :: (handle_close fd o.writeClose).1 ∧
      (writePhase fd (t + 1) o).2 = (handle_close fd o.writeClose).2) ∧
    ((o.sendRes = SendResult.wouldBlock ∨ o.sendRes = SendResult.fatal) →
      (writePhase fd (t + 1) o).2 = some 1) := by
  obtain ⟨cs, st, rc, sr, wc⟩ := o
  cases sr <;> simp [writePhase]

/-- Claim C7 (confirmed): closing a connection first deregisters the descriptor
and then closes it, in that order; it returns 0 (exit component `none`) iff
both operations succeeded, and on either failure it prints a diagnostic and
terminates the process with exit code 1. -/
theorem handle_close_spec (fd : Nat) (o : CloseOracle) :
    ((handle_close fd o).2 = none ↔ (o.deregOk = true ∧ o.closeOk = true)) ∧
    (o.deregOk = true → o.closeOk = true →
      (handle_close fd o).1 = [Action.deregister fd, Action.closeFd fd]) ∧
    ((o.deregOk = false ∨ o.closeOk = false) →
      (handle_close fd o).2 = some 1 ∧ ∃ m, Action.diag m ∈ (handle_close fd o).1) := by
  obtain ⟨d, c⟩ := o
  cases d <;> cases c <;> simp [handle_close]

-- helper lemmas

theorem handle_close_exit (fd : Nat) (o : CloseOracle) :
    (handle_close fd o).2 = none ∨ (handle_close fd o).2 = some 1 := by
  obtain ⟨d, c⟩ := o
  cases d <;> cases c <;> simp [handle_close]

theorem readPhase_exit (fd : Nat) (o : EventOracle) :
    (readPhase fd o).2 = none ∨ (readPhase fd o).2 = some 1 := by
  unfold readPhase
  cases readDecision o
  · simp
  · simpa using handle_close_exit fd o.readClose
  · simp

theorem writePhase_exit (fd t : Nat) (o : EventOracle) :
    (writePhase fd t o).2 = none ∨ (writePhase fd t o).2 = some 1 := by
  unfold writePhase
  split_ifs
  · simp
  · cases o.sendRes
    · simp
    · simp
    · simpa using handle_close_exit fd o.writeClose
    · simp
    · simp

theorem acceptPhase_exit (fl : EpollFlags) (o : AcceptOracle) :
    (acceptPhase fl o).2 = none ∨ (acceptPhase fl o).2 = some 1 := by
  obtain ⟨ar, g, s, e⟩ := o
  obtain ⟨fin, fout, ferr⟩ := fl
  cases fin <;> cases ar <;> cases g <;> cases s <;> cases e <;> simp [acceptPhase]

theorem connPhases_exit (ev : Event) :
    (connPhases ev).2 = none ∨ (connPhases ev).2 = some 1 := by
  unfold connPhases
  rcases h1 : (if ev.flags.epollin then readPhase ev.fd ev.conn
      else (([] : List Action), (none : Option Nat))) with ⟨t1, e1⟩
  have hs1 := congrArg Prod.snd h1
  have he1 : e1 = none ∨ e1 = some 1 := by
    by_cases hin : ev.flags.epollin <;> simp [hin] at hs1
    · exact hs1 ▸ readPhase_exit ev.fd ev.conn
    · exact Or.inl hs1.symm
  rcases he1 with rfl | rfl
  · rcases h2 : (if ev.flags.epollout then
        writePhase ev.fd (if ev.flags.epollin then totalBytes ev.conn else 0) ev.conn
        else (([] : List Action), (none : Option Nat))) with ⟨t2, e2⟩
    have hs2 := congrArg Prod.snd h2
    have he2 : e2 = none ∨ e2 = some 1 := by
      by_cases hout : ev.flags.epollout <;> simp [hout] at hs2
      · exact hs2 ▸ writePhase_exit ev.fd (if ev.flags.epollin then totalBytes ev.conn else 0) ev.conn
      · exact Or.inl hs2.symm
    rcases he2 with rfl | rfl <;> simp
  · simp

theorem processEvent_exit (L : Nat) (ev : Event) :
    (processEvent L ev).2 = none ∨ (processEvent L ev).2 = some 1 := by
  unfold processEvent
  split_ifs
  · exact acceptPhase_exit ev.flags ev.acc
  · exact connPhases_exit ev

theorem processBatch_exit (L : Nat) (evs : List Event) :
    (processBatch L evs).2 = none ∨ (processBatch L evs).2 = some 1 := by
  induction evs with
  | nil => simp [processBatch]
  | cons ev rest ih =>
      rcases h : processEvent L ev with ⟨t, e⟩
      rcases processEvent_exit L ev with h1 | h1 <;> rw [h] at h1 <;> subst h1 <;>
        simp [processBatch, h, ih]

theorem readLoopTrace_actions (fd : Nat) (cs : List (List Nat)) (a : Action)
    (h : a ∈ readLoopTrace fd cs) :
    a = Action.recvCall fd ∨ ∃ bs, a = Action.logOut bs := by
  induction cs with
  | nil => simp [readLoopTrace] at h; simp [h]
  | cons c cs ih =>
      simp [readLoopTrace] at h
      rcases h with h | h | h
      · simp [h]
      · exact Or.inr ⟨_, h⟩
      · exact ih h

theorem handle_close_actions (fd : Nat) (o : CloseOracle) (a : Action)
    (h : a ∈ (handle_close fd o).1) :
    a = Action.deregister fd ∨ a = Action.closeFd fd ∨ ∃ m, a = Action.diag m := by
  obtain ⟨d, c⟩ := o
  cases d <;> cases c <;> simp [handle_close] at h <;>
    first
      | (rcases h with h | h <;> simp [h])
      | simp [h]

theorem readPhase_actions (fd : Nat) (o : EventOracle) (a : Action)
    (h : a ∈ (readPhase fd o).1) :
    a = Action.recvCall fd ∨ (∃ bs, a = Action.logOut bs) ∨
    a = Action.deregister fd ∨ a = Action.closeFd fd ∨ ∃ m, a = Action.diag m := by
  unfold readPhase at h
  cases hD : readDecision o <;> simp only [hD] at h <;> (try simp at h)
  · rcases readLoopTrace_actions fd o.chunks a h with h | h
    · simp [h]
    · exact Or.inr (Or.inl h)
  · rcases h with h | h
    · rcases readLoopTrace_actions fd o.chunks a h with h | h
      · simp [h]
      · exact Or.inr (Or.inl h)
    · rcases handle_close_actions fd o.readClose a h with h | h | h <;> simp [h]
  · rcases h with h | h
    · rcases readLoopTrace_actions fd o.chunks a h with h | h
      · simp [h]
      · exact Or.inr (Or.inl h)
    · simp [h]

theorem writePhase_actions (fd t : Nat) (o : EventOracle) (a : Action)
    (h : a ∈ (writePhase fd t o).1) :
    a = Action.sendAck fd ackPayload ∨ a = Action.deregister fd ∨
    a = Action.closeFd fd ∨ ∃ m, a = Action.diag m := by
  unfold writePhase at h
  split_ifs at h
  · simp at h
  · cases hS : o.sendRes <;> simp only [hS] at h <;> simp at h
    · simp [h]
    · simp [h]
    · rcases h with h | h
      · simp [h]
      · rcases handle_close_actions fd o.writeClose a h with h | h | h <;> simp [h]
    · rcases h with h | h <;> simp [h]
    · rcases h with h | h <;> simp [h]

theorem acceptPhase_actions (fl : EpollFlags) (o : AcceptOracle) (a : Action)
    (h : a ∈ (acceptPhase fl o).1) :
    (∃ c, a = Action.acceptConn c ∨ a = Action.setNonblocking c ∨
      a = Action.register c true true true) ∨ ∃ m, a = Action.diag m := by
  obtain ⟨ar, g, s, e⟩ := o
  obtain ⟨fin, fout, ferr⟩ := fl
  cases fin <;> cases ar <;> cases g <;> cases s <;> cases e <;>
    simp [acceptPhase] at h <;>
    first
      | (rcases h with h | h | h <;> simp [h])
      | (rcases h with h | h <;> simp [h])
      | simp [h]

theorem connPhases_actions (ev : Event) (a : Action) (h : a ∈ (connPhases ev).1) :
    a = Action.recvCall ev.fd ∨ (∃ bs, a = Action.logOut bs) ∨
    a = Action.sendAck ev.fd ackPayload ∨ a = Action.deregister ev.fd ∨
    a = Action.closeFd ev.fd ∨ ∃ m, a = Action.diag m := by
  unfold connPhases at h
  rcases h1 : (if ev.flags.epollin then readPhase ev.fd ev.conn
      else (([] : List Action), (none : Option Nat))) with ⟨t1, e1⟩
  rw [h1] at h
  have ht1 : ∀ b : Action, b ∈ t1 → b = Action.recvCall ev.fd ∨ (∃ bs, b = Action.logOut bs) ∨
      b = Action.deregister ev.fd ∨ b = Action.closeFd ev.fd ∨ ∃ m, b = Action.diag m := by
    intro b hb
    have hf := congrArg Prod.fst h1
    by_cases hin : ev.flags.epollin <;> simp [hin] at hf
    · exact readPhase_actions ev.fd ev.conn b (by rw [hf]; exact hb)
    · subst hf; simp at hb
  cases e1 with
  | some c =>
      simp at h
      rcases ht1 a h with h | h | h | h | h <;> simp [h]
  | none =>
      rcases h2 : (if ev.flags.epollout then
          writePhase ev.fd (if ev.flags.epollin then totalBytes ev.conn else 0) ev.conn
          else (([] : List Action), (none : Option Nat))) with ⟨t2, e2⟩
      rw [h2] at h
      have ht2 : ∀ b : Action, b ∈ t2 → b = Action.sendAck ev.fd ackPayload ∨
          b = Action.deregister ev.fd ∨ b = Action.closeFd ev.fd ∨ ∃ m, b = Action.diag m := by
        intro b hb
        have hf := congrArg Prod.fst h2
        by_cases hout : ev.flags.epollout <;> simp [hout] at hf
        · exact writePhase_actions ev.fd _ ev.conn b (by rw [hf]; exact hb)
        · subst hf; simp at hb
      cases e2 with
      | some c =>
          simp at h
          rcases h with h | h
          · rcases ht1 a h with h | h | h | h | h <;> simp [h]
          · rcases ht2 a h with h | h | h | h <;> simp [h]
      | none =>
          simp at h
          rcases h with h | h | h
          · rcases ht1 a h with h | h | h | h | h <;> simp [h]
          · rcases ht2 a h with h | h | h | h <;> simp [h]
          · by_cases herr : ev.flags.epollerr <;> simp [herr] at h
            simp [h]

theorem processEvent_listener_safe (L : Nat) (ev : Event) :
    Action.recvCall L ∉ (processEvent L ev).1 ∧
    (∀ p, Action.sendAck L p ∉ (processEvent L ev).1) ∧
    Action.deregister L ∉ (processEvent L ev).1 ∧
    Action.closeFd L ∉ (processEvent L ev).1 := by
  unfold processEvent
  split_ifs with hfd
  · refine ⟨?_, fun p => ?_, ?_, ?_⟩ <;> intro hmem <;>
      rcases acceptPhase_actions ev.flags ev.acc _ hmem with ⟨c, h | h | h⟩ | ⟨m, h⟩ <;>
        simp at h
  · refine ⟨?_, fun p => ?_, ?_, ?_⟩ <;> intro hmem <;>
      rcases connPhases_actions ev _ hmem with h | ⟨bs, h⟩ | h | h | h | ⟨m, h⟩ <;>
        simp at h <;> simp [h] at hfd

theorem processBatch_listener_safe (L : Nat) (evs : List Event) :
    Action.recvCall L ∉ (processBatch L evs).1 ∧
    (∀ p, Action.sendAck L p ∉ (processBatch L evs).1) ∧
    Action.deregister L ∉ (processBatch L evs).1 ∧
    Action.closeFd L ∉ (processBatch L evs).1 := by
  induction evs with
  | nil => simp [processBatch]
  | cons ev rest ih =>
      obtain ⟨h1, h2, h3, h4⟩ := processEvent_listener_safe L ev
      obtain ⟨i1, i2, i3, i4⟩ := ih
      rcases hE : processEvent L ev with ⟨t, e⟩
      rw [hE] at h1 h2 h3 h4
      cases e
      · simp only [processBatch, hE]
        refine ⟨?_, fun p => ?_, ?_, ?_⟩ <;> simp_all
      · simp only [processBatch, hE]
        exact ⟨h1, h2, h3, h4⟩

theorem countCloseFd_eq_zero (L : Nat) (tr : List Action)
    (h : Action.closeFd L ∉ tr) : countCloseFd L tr = 0 := by
  unfold countCloseFd
  rw [List.countP_eq_zero]
  intro a ha
  cases a <;> simp
  intro heq
  subst heq
  exact h ha

/-- Claim C10 (confirmed): no receive, send or deregistration ever targets the
listening descriptor, and it is successfully closed exactly once, namely on
the shutdown path of an interrupted poll whose close succeeds. -/
theorem listener_never_conn_closed (L : Nat) (r : PollResult) (ok : Bool) :
    Action.recvCall L ∉ (eventLoopStep L r ok).1 ∧
    (∀ p, Action.sendAck L p ∉ (eventLoopStep L r ok).1) ∧
    Action.deregister L ∉ (eventLoopStep L r ok).1 ∧
    countCloseFd L (eventLoopStep L r ok).1 =
      (match r with
       | PollResult.interrupted => if ok then 1 else 0
       | PollResult.failed => 0
       | PollResult.events _ => 0) := by
  cases r with
  | interrupted =>
      cases ok <;> simp [eventLoopStep, countCloseFd, List.countP_cons]
  | failed => simp [eventLoopStep, countCloseFd]
  | events batch =>
      obtain ⟨h1, h2, h3, h4⟩ := processBatch_listener_safe L batch
      exact ⟨h1, h2, h3, countCloseFd_eq_zero L _ h4⟩

/-- Claim C9 (confirmed): a listener event performs at most one accept; on
success the new descriptor is set non-blocking and registered edge-triggered
for read plus write readiness; failure of the accept, the mode switch or the
registration exits the process with code 1; without read-readiness the event
does nothing. -/
theorem accept_per_event_spec (L : Nat) (flags : EpollFlags) (conn : EventOracle)
    (acc : AcceptOracle) :
    countAccept (processEvent L ⟨L, flags, conn, acc⟩).1 ≤ 1 ∧
    (∀ c, flags.epollin = true → acc.acceptRes = some c →
      acc.fcntlGetOk = true → acc.fcntlSetOk = true → acc.epollAddOk = true →
      processEvent L ⟨L, flags, conn, acc⟩ =
        ([Action.acceptConn c, Action.setNonblocking c, Action.register c true true true],
         none)) ∧
    (flags.epollin = true →
      (acc.acceptRes = none ∨ acc.fcntlGetOk = false ∨ acc.fcntlSetOk = false ∨
        acc.epollAddOk = false) →
      (processEvent L ⟨L, flags, conn, acc⟩).2 = some 1) ∧
    (flags.epollin = false → processEvent L ⟨L, flags, conn, acc⟩ = ([], none)) := by
  obtain ⟨ar, g, s, e⟩ := acc
  obtain ⟨fin, fout, ferr⟩ := flags
  cases fin <;> cases ar <;> cases g <;> cases s <;> cases e <;>
    simp [processEvent, acceptPhase, countAccept, List.countP_cons]

theorem countAck_append (f : Nat) (t1 t2 : List Action) :
    countAck f (t1 ++ t2) = countAck f t1 + countAck f t2 :=
  List.countP_append _ t1 t2

theorem countAck_eq_zero (f : Nat) (tr : List Action)
    (h : ∀ p, Action.sendAck f p ∉ tr) : countAck f tr = 0 := by
  unfold countAck
  rw [List.countP_eq_zero]
  intro a ha
  cases a <;> simp
  intro heq
  subst heq
  exact h _ ha

theorem readPhase_noAck (f fd : Nat) (o : EventOracle) :
    countAck f (readPhase fd o).1 = 0 := by
  refine countAck_eq_zero f _ (fun p hp => ?_)
  rcases readPhase_actions fd o _ hp with h | ⟨bs, h⟩ | h | h | ⟨m, h⟩ <;> simp at h

theorem countAck_writePhase (fd t : Nat) (o : EventOracle) :
    countAck fd (writePhase fd t o).1 = if t = 0 then 0 else 1 := by
  obtain ⟨cs, st, ⟨rd, rc⟩, sr, ⟨wd, wc⟩⟩ := o
  cases sr <;> cases wd <;> cases wc <;>
    split_ifs with ht <;>
    simp [writePhase, ht, handle_close, countAck, List.countP_cons]

/-- Claim C8 counterexample: a fatal recv error while handling a batch also
exits the process from inside the event loop, so the poll-site exits are not
the only ones. -/
theorem loop_exit_inside_batch_cex :
    ¬ (∀ (L : Nat) (r : PollResult) (ok : Bool),
        (eventLoopStep L r ok).2 ≠ none →
        (r = PollResult.interrupted ∨ r = PollResult.failed)) := by
  intro h
  rcases h 3 (PollResult.events [evFatal]) true (by decide) with h | h <;> simp at h

/-- Claim C8 (corrected): one loop pass exits with status 0 exactly when the
poll was interrupted and the listener close succeeded; a failed poll, or an
interrupted poll whose listener close fails, exits with status 1; handling a
batch either continues the loop or exits with status 1. -/
theorem exit_code_policy (L : Nat) (r : PollResult) (ok : Bool) :
    ((eventLoopStep L r ok).2 = some 0 ↔ (r = PollResult.interrupted ∧ ok = true)) ∧
    (r = PollResult.failed → (eventLoopStep L r ok).2 = some 1) ∧
    (r = PollResult.interrupted → ok = false → (eventLoopStep L r ok).2 = some 1) ∧
    (∀ batch, r = PollResult.events batch →
      (eventLoopStep L r ok).2 = none ∨ (eventLoopStep L r ok).2 = some 1) := by
  cases r with
  | interrupted => cases ok <;> simp [eventLoopStep]
  | failed => cases ok <;> simp [eventLoopStep]
  | events batch =>
      rcases processBatch_exit L batch with h | h <;>
        cases ok <;> simp [eventLoopStep, h]

/-- Claim C1 counterexample: an event carrying only the read-readiness flag
receives a byte yet sends no acknowledgment. -/
theorem ack_without_write_flag_cex :
    ¬ (∀ (L : Nat) (ev : Event), ev.fd ≠ L → 0 < totalBytes ev.conn →
        countAck ev.fd (processEvent L ev).1 = 1) := by
  intro h
  have h2 := h 3 evReadOnly (by decide) (by decide)
  exact absurd h2 (by decide)

theorem connPhases_eq (ev : Event)
    (hread : (if ev.flags.epollin then readPhase ev.fd ev.conn
        else (([] : List Action), (none : Option Nat))).2 = none) :
    connPhases ev =
      ((if ev.flags.epollin then readPhase ev.fd ev.conn else ([], none)).1 ++
       (if ev.flags.epollout then
          writePhase ev.fd (if ev.flags.epollin then totalBytes ev.conn else 0) ev.conn
        else ([], none)).1 ++
       (if (if ev.flags.epollout then
              writePhase ev.fd (if ev.flags.epollin then totalBytes ev.conn else 0) ev.conn
            else ([], none)).2 = none ∧ ev.flags.epollerr = true
        then [Action.diag Msg.epollErrFlag] else []),
       (if ev.flags.epollout then
          writePhase ev.fd (if ev.flags.epollin then totalBytes ev.conn else 0) ev.conn
        else ([], none)).2) := by
  unfold connPhases
  rcases h1 : (if ev.flags.epollin then readPhase ev.fd ev.conn
      else (([] : List Action), (none : Option Nat))) with ⟨t1, e1⟩
  have he1 : e1 = none := by
    have hs := congrArg Prod.snd h1
    simp at hs
    rw [hs] at hread
    exact hread
  subst he1
  rcases h2 : (if ev.flags.epollout then
      writePhase ev.fd (if ev.flags.epollin then totalBytes ev.conn else 0) ev.conn
      else (([] : List Action), (none : Option Nat))) with ⟨t2, e2⟩
  cases e2 with
  | none => by_cases herr : ev.flags.epollerr <;> simp [herr]
  | some c => simp

/-- Claim C1 (corrected): in a pass whose read phase does not exit the
process, exactly one ack send of the 5-byte frame (text plus trailing NUL) is
attempted iff the event carries the write flag and at least one byte was
received in this pass, and zero otherwise; every ack attempt carries exactly
that payload. -/
theorem ack_count_write_flag (L : Nat) (ev : Event)
    (hfd : ev.fd ≠ L)
    (hread : (if ev.flags.epollin then readPhase ev.fd ev.conn
        else (([] : List Action), (none : Option Nat))).2 = none) :
    countAck ev.fd (processEvent L ev).1 =
      (if ev.flags.epollout = true ∧
          0 < (if ev.flags.epollin then totalBytes ev.conn else 0) then 1 else 0) ∧
    ∀ p, Action.sendAck ev.fd p ∈ (processEvent L ev).1 → p = ackPayload := by
  constructor
  · rw [processEvent, if_neg hfd, connPhases_eq ev hread]
    simp only [countAck_append]
    have ht1 : countAck ev.fd
        (if ev.flags.epollin then readPhase ev.fd ev.conn else ([], none)).1 = 0 := by
      by_cases hin : ev.flags.epollin <;> simp [hin]
      · exact readPhase_noAck ev.fd ev.fd ev.conn
      · simp [countAck]
    have ht3 : ∀ c : Prop, ∀ h : Decidable c, countAck ev.fd
        (if c then [Action.diag Msg.epollErrFlag] else []) = 0 := by
      intro c h
      split_ifs <;> simp [countAck]
    rw [ht1, ht3]
    by_cases hout : ev.flags.epollout <;> simp [hout]
    · rw [countAck_writePhase]
      split_ifs <;> omega
    · simp [countAck]
  · intro p hp
    have hp2 : Action.sendAck ev.fd p ∈ (connPhases ev).1 := by
      rw [processEvent, if_neg hfd] at hp
      exact hp
    rcases connPhases_actions ev _ hp2 with h | ⟨bs, h⟩ | h | h | h | ⟨m, h⟩ <;>
      simp at h
    exact h

/-- Witness for the corrected C1 theorem on a concrete read+write event with
two bytes received. -/
theorem ack_count_write_flag_witness :
    (countAck evTwoBytes.fd (processEvent 3 evTwoBytes).1 =
      (if evTwoBytes.flags.epollout = true ∧
          0 < (if evTwoBytes.flags.epollin then totalBytes evTwoBytes.conn else 0)
       then 1 else 0) ∧
    ∀ p, Action.sendAck evTwoBytes.fd p ∈ (processEvent 3 evTwoBytes).1 →
      p = ackPayload) :=
  ack_count_write_flag 3 evTwoBytes (by decide) (by decide)

theorem processEvent_ack_only_own (L : Nat) (ev : Event) (f : Nat)
    (hf : f ≠ ev.fd) : countAck f (processEvent L ev).1 = 0 := by
  refine countAck_eq_zero f _ (fun p hp => ?_)
  unfold processEvent at hp
  split_ifs at hp
  · rcases acceptPhase_actions ev.flags ev.acc _ hp with ⟨c, h | h | h⟩ | ⟨m, h⟩ <;>
      simp at h
  · rcases connPhases_actions ev _ hp with h | ⟨bs, h⟩ | h | h | h | ⟨m, h⟩ <;>
      simp at h
    exact hf h.1

/-- Claim C5 counterexample: in a batch of two connection events the first
reads two bytes, yet the second, which reads nothing, sends no acknowledgment:
the received-byte counter did not leak from the first event into the
second event's acknowledgment decision. -/
theorem counter_not_shared_cex :
    0 < totalBytes evTwoBytes.conn ∧ evNoData.flags.epollout = true ∧
    (processEvent 3 evTwoBytes).2 = none ∧
    countAck evNoData.fd (processBatch 3 [evTwoBytes, evNoData]).1 = 0 := by decide

/-- Claim C5 (corrected): `total_bytes_in` is declared inside the per-event
loop body, so it restarts at zero for every event: the number of acks sent to
the second event's descriptor is the same whether or not the first event
precedes it in the batch. -/
theorem counter_reset_per_event (L : Nat) (e1 e2 : Event)
    (h1 : (processEvent L e1).2 = none) (h2 : e1.fd ≠ e2.fd) :
    countAck e2.fd (processBatch L [e1, e2]).1 =
      countAck e2.fd (processBatch L [e2]).1 := by
  rcases hE : processEvent L e1 with ⟨t, e⟩
  have he : e = none := by
    have hs := congrArg Prod.snd hE
    simp at hs
    rw [hs] at h1
    exact h1
  subst he
  have ht : countAck e2.fd t = 0 := by
    have hf := congrArg Prod.fst hE
    simp at hf
    rw [← hf]
    exact processEvent_ack_only_own L e1 e2.fd (fun h => h2 h.symm)
  simp [processBatch, hE, countAck_append, ht]

/-- Witness for the corrected C5 theorem on a concrete two-event batch. -/
theorem counter_reset_per_event_witness :
    countAck evNoData.fd (processBatch 3 [evTwoBytes, evNoData]).1 =
      countAck evNoData.fd (processBatch 3 [evNoData]).1 :=
  counter_reset_per_event 3 evTwoBytes evNoData (by decide) (by decide)

theorem noDereg_afterDeregUse (e : List Action) (h : ∀ a ∈ e, deregFd a = none) :
    afterDeregUse e = false := by
  induction e with
  | nil => rfl
  | cons a t ih =>
      simp [afterDeregUse, h a (by simp), ih (fun b hb => h b (by simp [hb]))]

theorem noRecvUse_afterDeregRecv (e : List Action)
    (h : ∀ g a, a ∈ e → isRecvOn g a = false) : afterDeregRecv e = false := by
  induction e with
  | nil => rfl
  | cons a t ih =>
      have ht : ∀ g b, b ∈ t → isRecvOn g b = false := fun g b hb => h g b (by simp [hb])
      have hany : ∀ g, t.any (isRecvOn g) = false := by
        intro g
        rw [List.any_eq_false]
        intro x hx
        simp [ht g x hx]
      cases hd : deregFd a <;> simp [afterDeregRecv, hd, hany, ih ht]

theorem afterDeregUse_append_noDereg (t e : List Action)
    (h : ∀ a ∈ t, deregFd a = none) :
    afterDeregUse (t ++ e) = afterDeregUse e := by
  induction t with
  | nil => rfl
  | cons a s ih =>
      simp [afterDeregUse, h a (by simp), ih (fun b hb => h b (by simp [hb]))]

theorem afterDeregRecv_append_noDereg (t e : List Action)
    (h : ∀ a ∈ t, deregFd a = none) :
    afterDeregRecv (t ++ e) = afterDeregRecv e := by
  induction t with
  | nil => rfl
  | cons a s ih =>
      simp [afterDeregRecv, h a (by simp), ih (fun b hb => h b (by simp [hb]))]

theorem readLoop_noDereg (fd : Nat) (cs : List (List Nat)) :
    ∀ a ∈ readLoopTrace fd cs, deregFd a = none := by
  intro a ha
  rcases readLoopTrace_actions fd cs a ha with h | ⟨bs, h⟩ <;> simp [h, deregFd]

theorem afterDeregUse_readLoop_append (fd : Nat) (cs : List (List Nat)) (t : List Action) :
    afterDeregUse (readLoopTrace fd cs ++ t) = afterDeregUse t :=
  afterDeregUse_append_noDereg _ _ (readLoop_noDereg fd cs)

theorem readPhase_split (fd : Nat) (o : EventOracle) :
    ∃ q, (readPhase fd o).1 = readLoopTrace fd o.chunks ++ q ∧
      ∀ g a, a ∈ q → isRecvOn g a = false := by
  unfold readPhase
  cases hD : readDecision o
  · exact ⟨[], by simp, by simp⟩
  · refine ⟨(handle_close fd o.readClose).1, by simp, ?_⟩
    intro g a ha
    rcases handle_close_actions fd o.readClose a ha with h | h | ⟨m, h⟩ <;>
      simp [h, isRecvOn]
  · refine ⟨[Action.diag Msg.recvErr], by simp, ?_⟩
    intro g a ha
    simp at ha
    simp [ha, isRecvOn]

theorem readIf_split (ev : Event) :
    ∃ pre q, (if ev.flags.epollin then readPhase ev.fd ev.conn
        else (([] : List Action), (none : Option Nat))).1 = pre ++ q ∧
      (∀ a ∈ pre, deregFd a = none) ∧ (∀ g a, a ∈ q → isRecvOn g a = false) := by
  by_cases hin : ev.flags.epollin
  · obtain ⟨q, hq, hnr⟩ := readPhase_split ev.fd ev.conn
    exact ⟨readLoopTrace ev.fd ev.conn.chunks, q, by simp [hin, hq],
      readLoop_noDereg _ _, hnr⟩
  · exact ⟨[], [], by simp [hin], by simp, by simp⟩

theorem connPhases_exit_eq (ev : Event) (c : Nat)
    (h : (if ev.flags.epollin then readPhase ev.fd ev.conn
        else (([] : List Action), (none : Option Nat))).2 = some c) :
    connPhases ev =
      ((if ev.flags.epollin then readPhase ev.fd ev.conn else ([], none)).1, some c) := by
  unfold connPhases
  rcases h1 : (if ev.flags.epollin then readPhase ev.fd ev.conn
      else (([] : List Action), (none : Option Nat))) with ⟨t1, e1⟩
  have he1 : e1 = some c := by
    have hs := congrArg Prod.snd h1
    simp at hs
    rw [hs] at h
    exact h
  subst he1
  simp

theorem no_recv_after_dereg (L : Nat) (ev : Event) :
    afterDeregRecv (processEvent L ev).1 = false := by
  unfold processEvent
  split_ifs with hfd
  · apply noRecvUse_afterDeregRecv
    intro g a ha
    rcases acceptPhase_actions ev.flags ev.acc a ha with ⟨c, h | h | h⟩ | ⟨m, h⟩ <;>
      simp [h, isRecvOn]
  · obtain ⟨pre, q, ht1, hpre, hq⟩ := readIf_split ev
    by_cases hre : (if ev.flags.epollin then readPhase ev.fd ev.conn
        else (([] : List Action), (none : Option Nat))).2 = none
    · rw [connPhases_eq ev hre]
      dsimp only
      rw [ht1, List.append_assoc, List.append_assoc, afterDeregRecv_append_noDereg _ _ hpre]
      apply noRecvUse_afterDeregRecv
      intro g a ha
      simp only [List.mem_append] at ha
      rcases ha with ha | ha | ha
      · exact hq g a ha
      · by_cases hout : ev.flags.epollout <;> simp [hout] at ha
        rcases writePhase_actions ev.fd _ ev.conn a ha with h | h | h | ⟨m, h⟩ <;>
          simp [h, isRecvOn]
      · split_ifs at ha <;> simp at ha <;> simp [ha, isRecvOn]
    · obtain ⟨c, hc⟩ := Option.ne_none_iff_exists'.mp hre
      rw [connPhases_exit_eq ev c hc]
      dsimp only
      rw [ht1, afterDeregRecv_append_noDereg _ _ hpre]
      exact noRecvUse_afterDeregRecv q hq

theorem diagIf_afterDeregUse (c : Prop) [Decidable c] (m : Msg) :
    afterDeregUse (if c then [Action.diag m] else []) = false := by
  split_ifs <;> simp [afterDeregUse, deregFd]

theorem diagIf_any (c : Prop) [Decidable c] (m : Msg) (g : Nat) :
    (if c then [Action.diag m] else []).any (usesFd g) = false := by
  split_ifs <;> simp [usesFd]

theorem writePhase_afterDeregUse (fd t : Nat) (o : EventOracle) (e : List Action)
    (he : afterDeregUse e = false) (hu : ∀ g, e.any (usesFd g) = false) :
    afterDeregUse ((writePhase fd t o).1 ++ e) = false := by
  by_cases ht : t = 0
  · simpa [writePhase, ht] using he
  · obtain ⟨cs, st, rc0, sr, ⟨wd, wc⟩⟩ := o
    cases sr <;> cases wd <;> cases wc <;>
      simp [writePhase, ht, handle_close, afterDeregUse, deregFd, usesFd, hu, he]

theorem writePhase_errIf_afterDeregUse (fd t : Nat) (o : EventOracle) (c : Prop)
    [Decidable c] (m : Msg) :
    afterDeregUse ((writePhase fd t o).1 ++ (if c then [Action.diag m] else [])) = false :=
  writePhase_afterDeregUse fd t o _ (diagIf_afterDeregUse c m) (fun g => diagIf_any c m g)

theorem writePhase_any (fd t : Nat) (o : EventOracle) :
    (writePhase fd t o).1.any (usesFd fd) = (if t = 0 then false else true) := by
  by_cases ht : t = 0
  · simp [writePhase, ht]
  · obtain ⟨cs, st, rc0, sr, ⟨wd, wc⟩⟩ := o
    cases sr <;> cases wd <;> cases wc <;>
      simp [writePhase, ht, handle_close, usesFd]

/-- Claim C6 counterexample: when a reset closes the connection during the
read phase after bytes were read, the same pass's write phase still performs
a send on the deregistered descriptor. -/
theorem send_after_dereg_cex :
    ¬ (∀ (L : Nat) (ev : Event), ev.fd ≠ L →
        afterDeregUse (processEvent L ev).1 = false) := by
  intro h
  have h2 := h 3 evResetThenSend (by decide)
  exact absurd h2 (by decide)

/-- Claim C6 (corrected): no receive ever follows a deregistration, and a
send follows one exactly when the same event carries both the read and write
flags, its recv loop ended in a connection reset after at least one byte, and
the close succeeded; the write phase then sends on the just-deregistered
descriptor (the resulting bad-descriptor error is ignored). -/
theorem use_after_dereg_characterization (L : Nat) (ev : Event) :
    afterDeregRecv (processEvent L ev).1 = false ∧
    (afterDeregUse (processEvent L ev).1 = true ↔
      (ev.fd ≠ L ∧ ev.flags.epollin = true ∧ ev.flags.epollout = true ∧
       ev.conn.stop = RecvStop.connReset ∧ 0 < totalBytes ev.conn ∧
       ev.conn.readClose.deregOk = true ∧ ev.conn.readClose.closeOk = true)) := by
  refine ⟨no_recv_after_dereg L ev, ?_⟩
  unfold processEvent
  split_ifs with hfd
  · have hN : afterDeregUse (acceptPhase ev.flags ev.acc).1 = false := by
      apply noDereg_afterDeregUse
      intro a ha
      rcases acceptPhase_actions ev.flags ev.acc a ha with ⟨c, h | h | h⟩ | ⟨m, h⟩ <;>
        simp [h, deregFd]
    simp [hN, hfd]
  · by_cases hin : ev.flags.epollin = true
    case neg =>
      have hre : (if ev.flags.epollin then readPhase ev.fd ev.conn
          else (([] : List Action), (none : Option Nat))).2 = none := by
        simp [hin]
      rw [connPhases_eq ev hre]
      dsimp only
      simp [writePhase, afterDeregUse, deregFd, diagIf_afterDeregUse, hin, ite_self]
    case pos =>
      cases hst : ev.conn.stop
      · -- wouldBlock: loop continues, nothing deregistered in the read phase
        have hre : (if ev.flags.epollin then readPhase ev.fd ev.conn
            else (([] : List Action), (none : Option Nat))).2 = none := by
          simp [hin, readPhase, readDecision, hst]
        rw [connPhases_eq ev hre]
        dsimp only
        have ht1 : (if ev.flags.epollin then readPhase ev.fd ev.conn
            else (([] : List Action), (none : Option Nat))).1 =
            readLoopTrace ev.fd ev.conn.chunks := by
          simp [hin, readPhase, readDecision, hst]
        rw [ht1, List.append_assoc, afterDeregUse_readLoop_append]
        by_cases hout : ev.flags.epollout = true
        · rw [if_pos hout, writePhase_errIf_afterDeregUse]
          simp [hst]
        · rw [if_neg hout]
          dsimp only
          rw [List.nil_append, diagIf_afterDeregUse]
          simp [hst]
      · -- connReset: the read phase closes the connection
        cases hrd : ev.conn.readClose.deregOk
        · have hsome : (if ev.flags.epollin then readPhase ev.fd ev.conn
              else (([] : List Action), (none : Option Nat))).2 = some 1 := by
            simp [hin, readPhase, readDecision, hst, handle_close, hrd]
          rw [connPhases_exit_eq ev 1 hsome]
          dsimp only
          have ht1 : (if ev.flags.epollin then readPhase ev.fd ev.conn
              else (([] : List Action), (none : Option Nat))).1 =
              readLoopTrace ev.fd ev.conn.chunks ++ [Action.diag Msg.epollCtlErr] := by
            simp [hin, readPhase, readDecision, hst, handle_close, hrd]
          rw [ht1, afterDeregUse_readLoop_append]
          simp [afterDeregUse, deregFd, hrd]
        · cases hrc : ev.conn.readClose.closeOk
          · have hsome : (if ev.flags.epollin then readPhase ev.fd ev.conn
                else (([] : List Action), (none : Option Nat))).2 = some 1 := by
              simp [hin, readPhase, readDecision, hst, handle_close, hrd, hrc]
            rw [connPhases_exit_eq ev 1 hsome]
            dsimp only
            have ht1 : (if ev.flags.epollin then readPhase ev.fd ev.conn
                else (([] : List Action), (none : Option Nat))).1 =
                readLoopTrace ev.fd ev.conn.chunks ++
                  [Action.deregister ev.fd, Action.diag Msg.closeErr] := by
              simp [hin, readPhase, readDecision, hst, handle_close, hrd, hrc]
            rw [ht1, afterDeregUse_readLoop_append]
            simp [afterDeregUse, deregFd, usesFd, hrc]
          · have hre : (if ev.flags.epollin then readPhase ev.fd ev.conn
                else (([] : List Action), (none : Option Nat))).2 = none := by
              simp [hin, readPhase, readDecision, hst, handle_close, hrd, hrc]
            rw [connPhases_eq ev hre]
            dsimp only
            have ht1 : (if ev.flags.epollin then readPhase ev.fd ev.conn
                else (([] : List Action), (none : Option Nat))).1 =
                readLoopTrace ev.fd ev.conn.chunks ++
                  [Action.deregister ev.fd, Action.closeFd ev.fd] := by
              simp [hin, readPhase, readDecision, hst, handle_close, hrd, hrc]
            rw [ht1, List.append_assoc, List.append_assoc, afterDeregUse_readLoop_append]
            by_cases hout : ev.flags.epollout = true
            · simp only [hout, if_true, hin]
              by_cases htot : totalBytes ev.conn = 0
              · simp [afterDeregUse, deregFd, usesFd, List.any_cons, List.any_append,
                  writePhase_any, writePhase_errIf_afterDeregUse, diagIf_any,
                  htot, hst, hfd, hin, hout, hrd, hrc]
              · simp [afterDeregUse, deregFd, usesFd, List.any_cons, List.any_append,
                  writePhase_any, writePhase_errIf_afterDeregUse, diagIf_any,
                  htot, hst, hfd, hin, hout, hrd, hrc, Nat.pos_of_ne_zero htot]
            · simp only [hout, if_false, List.nil_append]
              simp [afterDeregUse, deregFd, usesFd, List.any_cons, diagIf_any,
                diagIf_afterDeregUse, hout, hst]
      · -- fatal recv error: the process exits during the read phase
        have hsome : (if ev.flags.epollin then readPhase ev.fd ev.conn
            else (([] : List Action), (none : Option Nat))).2 = some 1 := by
          simp [hin, readPhase, readDecision, hst]
        rw [connPhases_exit_eq ev 1 hsome]
        dsimp only
        have ht1 : (if ev.flags.epollin then readPhase ev.fd ev.conn
            else (([] : List Action), (none : Option Nat))).1 =
            readLoopTrace ev.fd ev.conn.chunks ++ [Action.diag Msg.recvErr] := by
          simp [hin, readPhase, readDecision, hst]
        rw [ht1, afterDeregUse_readLoop_append]
        simp [afterDeregUse, deregFd, hst]
      · -- eof: orderly close only when no bytes were read
        by_cases htot : totalBytes ev.conn = 0
        · cases hrd : ev.conn.readClose.deregOk
          · have hsome : (if ev.flags.epollin then readPhase ev.fd ev.conn
                else (([] : List Action), (none : Option Nat))).2 = some 1 := by
              simp [hin, readPhase, readDecision, hst, htot, handle_close, hrd]
            rw [connPhases_exit_eq ev 1 hsome]
            dsimp only
            have ht1 : (if ev.flags.epollin then readPhase ev.fd ev.conn
                else (([] : List Action), (none : Option Nat))).1 =
                readLoopTrace ev.fd ev.conn.chunks ++ [Action.diag Msg.epollCtlErr] := by
              simp [hin, readPhase, readDecision, hst, htot, handle_close, hrd]
            rw [ht1, afterDeregUse_readLoop_append]
            simp [afterDeregUse, deregFd, hst]
          · cases hrc : ev.conn.readClose.closeOk
            · have hsome : (if ev.flags.epollin then readPhase ev.fd ev.conn
                  else (([] : List Action), (none : Option Nat))).2 = some 1 := by
                simp [hin, readPhase, readDecision, hst, htot, handle_close, hrd, hrc]
              rw [connPhases_exit_eq ev 1 hsome]
              dsimp only
              have ht1 : (if ev.flags.epollin then readPhase ev.fd ev.conn
                  else (([] : List Action), (none : Option Nat))).1 =
                  readLoopTrace ev.fd ev.conn.chunks ++
                    [Action.deregister ev.fd, Action.diag Msg.closeErr] := by
                simp [hin, readPhase, readDecision, hst, htot, handle_close, hrd, hrc]
              rw [ht1, afterDeregUse_readLoop_append]
              simp [afterDeregUse, deregFd, usesFd, hst]
            · have hre : (if ev.flags.epollin then readPhase ev.fd ev.conn
                  else (([] : List Action), (none : Option Nat))).2 = none := by
                simp [hin, readPhase, readDecision, hst, htot, handle_close, hrd, hrc]
              rw [connPhases_eq ev hre]
              dsimp only
              have ht1 : (if ev.flags.epollin then readPhase ev.fd ev.conn
                  else (([] : List Action), (none : Option Nat))).1 =
                  readLoopTrace ev.fd ev.conn.chunks ++
                    [Action.deregister ev.fd, Action.closeFd ev.fd] := by
                simp [hin, readPhase, readDecision, hst, htot, handle_close, hrd, hrc]
              rw [ht1, List.append_assoc, List.append_assoc, afterDeregUse_readLoop_append]
              simp only [hin, if_true, htot]
              simp [writePhase, afterDeregUse, deregFd, usesFd, List.any_cons,
                List.any_append, diagIf_any, diagIf_afterDeregUse, hst]
        · have hre : (if ev.flags.epollin then readPhase ev.fd ev.conn
              else (([] : List Action), (none : Option Nat))).2 = none := by
            simp [hin, readPhase, readDecision, hst, htot]
          rw [connPhases_eq ev hre]
          dsimp only
          have ht1 : (if ev.flags.epollin then readPhase ev.fd ev.conn
              else (([] : List Action), (none : Option Nat))).1 =
              readLoopTrace ev.fd ev.conn.chunks := by
            simp [hin, readPhase, readDecision, hst, htot]
          rw [ht1, List.append_assoc, afterDeregUse_readLoop_append]
          by_cases hout : ev.flags.epollout = true
          · rw [if_pos hout, writePhase_errIf_afterDeregUse]
            simp [hst]
          · rw [if_neg hout]
            dsimp only
            rw [List.nil_append, diagIf_afterDeregUse]
            simp [hst]

end EpollServer
